import Mathlib

/-!
Shallow embedding of the trip-extraction logic of
`src/scripts/scrape.py` (Mike Ball availability scraper).

The embedded functions mirror, line for line, the pure parsing helpers
`parse_money_to_int`, `to_date_obj`, `norm_availability`,
`extract_int_in_text`, `within_window` and the extraction routine
`extract_from_results`.  Page rows are modelled as records carrying the
cell texts, the flattened row text and the nested cabin tables that the
Playwright locators would return; everything downstream of those locator
reads is translated faithfully.

Modelling conventions:
* Python `str` becomes `String`; text processing is done on `List Char`
  (`String.data`) so that every operation kernel-reduces; `.strip()`,
  `.lower()` and substring tests are reimplemented for ASCII, which is
  the only alphabet the scraped cells use.
* CPython `int(round(float(v)))` on a cleaned digits-and-dots string is
  modelled with exact decimal semantics and round-half-to-even, which
  agrees with binary floating point on all money-sized inputs.
* `datetime.strptime` with the formats `"%d %b %Y"` / `"%d %B %Y"` is
  modelled by its compiled regular expression: day = 1 or 2 digits with
  value 1..31, month = English month name (case-insensitive), year =
  exactly 4 digits, tokens separated by runs of whitespace, full match
  required, followed by the calendar-validity check that
  `datetime.date` performs.
-/

namespace MikeBall

/-- The constant `SOURCE_URL` of the script. -/
def sourceURL : String :=
  "https://www.mikeball.com/availability-mike-ball-dive-expeditions/"

/-! ### Character-list text helpers -/

/-- Python `str.strip()` (ASCII whitespace). -/
def trimChars (l : List Char) : List Char :=
  ((l.dropWhile Char.isWhitespace).reverse.dropWhile Char.isWhitespace).reverse

/-- Python `str.lower()` (ASCII). -/
def lowerChars (l : List Char) : List Char :=
  l.map Char.toLower

/-- Python `str.strip()` on a `String`. -/
def pyStrip (s : String) : String :=
  ⟨trimChars s.data⟩

/-- Python substring containment `needle in hay`. -/
def hasSub (hay needle : List Char) : Bool :=
  match hay with
  | [] => needle.isEmpty
  | c :: t => needle.isPrefixOf (c :: t) || hasSub t needle

/-- Value of a (decimal) digit string, `int("..")` on an all-digit string. -/
def digitsToNat (l : List Char) : Nat :=
  l.foldl (fun n c => n * 10 + (c.toNat - 48)) 0

/-! ### `parse_money_to_int` (scrape.py lines 28-37)

```python
def parse_money_to_int(s):
    if not s: return None
    v = re.sub(r"[^\d.]", "", s)
    if not v: return None
    try: return int(round(float(v)))
    except: return None
```
-/

/-- Compare the decimal fraction `0.d₁d₂…` written by `frac` with `1/2`. -/
def fracHalfCmp (frac : List Char) : Ordering :=
  match frac with
  | [] => .lt
  | c :: rest =>
    if c.toNat > 53 then .gt
    else if c.toNat < 53 then .lt
    else if rest.any (fun d => d != '0') then .gt else .eq

/-- `int(round(float(v)))` for `v` made of digits and dots: defined exactly
when `v` holds at most one dot and at least one digit, rounding half to
even (CPython `round`). -/
def floatRound (v : List Char) : Option Nat :=
  let intPart := v.takeWhile (fun c => c != '.')
  let rest := v.dropWhile (fun c => c != '.')
  match rest with
  | [] =>
    some (digitsToNat intPart)
  | _ :: frac =>
    if frac.any (fun c => c == '.') then none
    else if intPart.isEmpty && frac.isEmpty then none
    else
      let a := digitsToNat intPart
      match fracHalfCmp frac with
      | .lt => some a
      | .gt => some (a + 1)
      | .eq => some (if a % 2 = 0 then a else a + 1)

/-- `parse_money_to_int` of scrape.py. -/
def parse_money_to_int (s : String) : Option Nat :=
  if s.isEmpty then none
  else
    let v := s.data.filter (fun c => c.isDigit || c == '.')
    if v.isEmpty then none
    else floatRound v

/-! ### `to_date_obj` (scrape.py lines 39-48) -/

/-- Calendar dates, as produced by `datetime.date`. -/
structure Date where
  year : Nat
  month : Nat
  day : Nat
deriving DecidableEq, Repr

/-- Python `date.__lt__`: lexicographic on (year, month, day). -/
def dateLt (a b : Date) : Bool :=
  decide (a.year < b.year ∨ (a.year = b.year ∧
    (a.month < b.month ∨ (a.month = b.month ∧ a.day < b.day))))

/-- Python `date.__le__`. -/
def dateLe (a b : Date) : Bool :=
  decide (a.year < b.year ∨ (a.year = b.year ∧
    (a.month < b.month ∨ (a.month = b.month ∧ a.day ≤ b.day))))

def isLeap (y : Nat) : Bool :=
  y % 4 == 0 && (y % 100 != 0 || y % 400 == 0)

def daysInMonth (y m : Nat) : Nat :=
  if m = 2 then (if isLeap y then 29 else 28)
  else if m = 4 ∨ m = 6 ∨ m = 9 ∨ m = 11 then 30
  else 31

def monthAbbr : List (List Char × Nat) :=
  [("jan".data, 1), ("feb".data, 2), ("mar".data, 3), ("apr".data, 4),
   ("may".data, 5), ("jun".data, 6), ("jul".data, 7), ("aug".data, 8),
   ("sep".data, 9), ("oct".data, 10), ("nov".data, 11), ("dec".data, 12)]

def monthFull : List (List Char × Nat) :=
  [("january".data, 1), ("february".data, 2), ("march".data, 3),
   ("april".data, 4), ("may".data, 5), ("june".data, 6), ("july".data, 7),
   ("august".data, 8), ("september".data, 9), ("october".data, 10),
   ("november".data, 11), ("december".data, 12)]

def weekdayAbbr : List (List Char) :=
  ["mon".data, "tue".data, "wed".data, "thu".data, "fri".data,
   "sat".data, "sun".data]

/-- `re.sub(r"^(Mon|Tue|Wed|Thu|Fri|Sat|Sun)\s+", "", txt, flags=re.I)`:
drop a leading three-letter weekday abbreviation together with the
following run of whitespace, when present. -/
def stripWeekday (l : List Char) : List Char :=
  match l with
  | c1 :: c2 :: c3 :: c4 :: rest =>
    if weekdayAbbr.contains [c1.toLower, c2.toLower, c3.toLower]
        && c4.isWhitespace then
      rest.dropWhile Char.isWhitespace
    else l
  | _ => l

/-- Split a character list into the maximal whitespace-free tokens. -/
def splitTokensAux : List Char → List Char → List (List Char)
  | [], acc => if acc.isEmpty then [] else [acc.reverse]
  | c :: rest, acc =>
    if c.isWhitespace then
      if acc.isEmpty then splitTokensAux rest []
      else acc.reverse :: splitTokensAux rest []
    else splitTokensAux rest (c :: acc)

def splitTokens (l : List Char) : List (List Char) :=
  splitTokensAux l []

/-- The `%d` field of `strptime`: one or two digits with value 1..31. -/
def parseDayTok (t : List Char) : Option Nat :=
  if t.all Char.isDigit && (t.length == 1 || t.length == 2) then
    let v := digitsToNat t
    if 1 ≤ v ∧ v ≤ 31 then some v else none
  else none

/-- The `%Y` field of `strptime`: exactly four digits. -/
def parseYearTok (t : List Char) : Option Nat :=
  if t.all Char.isDigit && t.length == 4 then some (digitsToNat t) else none

/-- `datetime.strptime(clean, "%d <month> %Y").date()` where the month
field is matched case-insensitively against `months`, followed by the
calendar-validity check of `datetime.date`. -/
def parseDateTokens (toks : List (List Char)) (months : List (List Char × Nat)) :
    Option Date :=
  match toks with
  | [dt, mt, yt] =>
    match parseDayTok dt, List.lookup (lowerChars mt) months, parseYearTok yt with
    | some d, some m, some y =>
      if 1 ≤ y ∧ d ≤ daysInMonth y m then some ⟨y, m, d⟩ else none
    | _, _, _ => none
  | _ => none

/-- `to_date_obj` of scrape.py: try `"%d %b %Y"` then `"%d %B %Y"` on the
weekday-stripped, stripped text. -/
def to_date_obj (txt : String) : Option Date :=
  if txt.isEmpty then none
  else
    let toks := splitTokens (stripWeekday (trimChars txt.data))
    match parseDateTokens toks monthAbbr with
    | some d => some d
    | none => parseDateTokens toks monthFull

/-! ### `norm_availability` (scrape.py lines 50-58) -/

def norm_availability (s : String) : String :=
  let t := lowerChars (trimChars s.data)
  if hasSub t "sold".data then "Sold Out"
  else if hasSub t "hurry".data || hasSub t "few".data then "Few left"
  else if hasSub t "10+".data || hasSub t "avail".data then "Available"
  else if s.isEmpty then "—" else pyStrip s

/-! ### `extract_int_in_text` (scrape.py lines 60-64) -/

def extract_int_in_text (s : String) : Option Nat :=
  if s.isEmpty then none
  else
    let ds := s.data.dropWhile (fun c => !c.isDigit)
    if ds.isEmpty then none
    else some (digitsToNat (ds.takeWhile Char.isDigit))

/-! ### `within_window` (scrape.py lines 66-73) -/

def within_window (d start stop : Option Date) : Bool :=
  match d with
  | none => false
  | some dd =>
    if start.any (fun ss => dateLt dd ss) then false
    else if stop.any (fun ee => dateLt ee dd) then false
    else true

/-! ### `extract_from_results` (scrape.py lines 216-269)

The routine walks `#availability-results table tbody tr`.  A page row is
modelled by the three locator reads the code performs on it: the `td`
inner texts, the flattened `inner_text()` of the whole row, and the list
of nested tables matching `table:has-text('Cabin Type')`, each given as
its `tbody tr` rows of `td` inner texts. -/

structure Row where
  cells : List String
  text : String
  tables : List (List (List String))
deriving Repr

structure Cabin where
  type : String
  available : Option Nat
  priceAUD : Option Nat
deriving DecidableEq, Repr

structure Trip where
  title : String
  dateText : String
  dateReturn : String
  priceFromAUD : Option Nat
  availability : String
  cabinsLeft : Option Nat
  link : String
  cabins : List Cabin
deriving DecidableEq, Repr

/-- One cabin body row: kept when it has at least 3 cells
(scrape.py lines 245-252). -/
def cabinsOfRows (rows : List (List String)) : List Cabin :=
  rows.filterMap fun tds =>
    match tds with
    | t0 :: t1 :: t2 :: _ =>
      some { type := pyStrip t0,
             available := extract_int_in_text t1,
             priceAUD := parse_money_to_int t2 }
    | _ => none

/-- `sum((c["available"] or 0) for c in cabins)`. -/
def sumAvail (cs : List Cabin) : Nat :=
  cs.foldl (fun a c => a + c.available.getD 0) 0

/-- `"cabin type" in nxt_text or "berths left" in nxt_text` on the
lower-cased flattened text of the next row (scrape.py line 241). -/
def rowIsDetail (r : Row) : Bool :=
  hasSub (lowerChars r.text.data) "cabin type".data ||
    hasSub (lowerChars r.text.data) "berths left".data

/-- Cabin list and `cabins_left` taken from a detail row: the first
matching nested table is parsed; with no such table the defaults
`([], None)` stand (scrape.py lines 242-253). -/
def detailData (nxt : Row) : List Cabin × Option Nat :=
  match nxt.tables with
  | [] => ([], none)
  | tbl :: _ =>
    let cabins := cabinsOfRows tbl
    (cabins, if cabins.isEmpty then none else some (sumAvail cabins))

/-- The record appended by `trips.append` (scrape.py lines 256-265). -/
def mkTrip (c0 c1 c2 c3 c4 : String) (cabins : List Cabin)
    (cabinsLeft : Option Nat) : Trip :=
  { title := pyStrip c0,
    dateText := pyStrip c1,
    dateReturn := pyStrip c2,
    priceFromAUD := parse_money_to_int (pyStrip c3),
    availability := norm_availability (pyStrip c4),
    cabinsLeft := cabinsLeft,
    link := sourceURL,
    cabins := cabins }

/-- The `while i < rcount` loop of `extract_from_results`: a row with at
least five cells whose departure date lies in the window yields a trip;
when its immediate successor is a cabin-detail row that successor is
consumed as well. -/
def extractLoop (start stop : Option Date) : List Row → List Trip
  | [] => []
  | [r] =>
    match r.cells with
    | c0 :: c1 :: c2 :: c3 :: c4 :: _ =>
      if within_window (to_date_obj (pyStrip c1)) start stop then
        [mkTrip c0 c1 c2 c3 c4 [] none]
      else []
    | _ => []
  | r :: nxt :: rest =>
    match r.cells with
    | c0 :: c1 :: c2 :: c3 :: c4 :: _ =>
      if within_window (to_date_obj (pyStrip c1)) start stop then
        if rowIsDetail nxt then
          let p := detailData nxt
          mkTrip c0 c1 c2 c3 c4 p.1 p.2 :: extractLoop start stop rest
        else
          mkTrip c0 c1 c2 c3 c4 [] none :: extractLoop start stop (nxt :: rest)
      else extractLoop start stop (nxt :: rest)
    | _ => extractLoop start stop (nxt :: rest)

/-- Sort key `to_date_obj(t.get("dateText","")) or date(1900,1,1)`
(scrape.py line 268). -/
def tripKey (t : Trip) : Date :=
  (to_date_obj t.dateText).getD ⟨1900, 1, 1⟩

/-- The comparison `list.sort` uses with that key. -/
def tripLe (a b : Trip) : Bool :=
  dateLe (tripKey a) (tripKey b)

/-- `extract_from_results` of scrape.py: run the row loop, then the
stable ascending sort by parsed departure date. -/
def extract_from_results (rows : List Row) (start stop : Option Date) :
    List Trip :=
  (extractLoop start stop rows).mergeSort tripLe

/-! ### Spec-side reference definition for the money parser -/

/-- Modelled from the spec: money parsing that "strips thousands
separators, takes the first decimal-or-integer numeric token, and rounds
to the nearest whole unit" — commas are removed, then the first maximal
run of digits and dots starting at the first digit is the token (ties
rounded as the code rounds, which the spec leaves open).  Used only to
compare the spec's wording with `parse_money_to_int`. -/
def parse_money_spec (s : String) : Option Nat :=
  let cs := s.data.filter (fun c => c != ',')
  let tail := cs.dropWhile (fun c => !c.isDigit)
  if tail.isEmpty then none
  else floatRound (tail.takeWhile (fun c => c.isDigit || c == '.'))

/-- Date comparison with an unresolvable (`none`) date as the maximum,
used to state the sorting claim. -/
def dateLeOpt (a b : Option Date) : Bool :=
  match a, b with
  | _, none => true
  | none, some _ => false
  | some x, some y => dateLe x y

/-! ### Concrete fixtures used by the scenario theorems -/

/-- The scenario row of spec §8: five cells, departs 12 September 2025. -/
def row6 : Row :=
  { cells := ["7 Night Coral Sea Exploratory", "12 September 2025",
              "19 September 2025", "$5,367", "6 available"],
    text := "7 Night Coral Sea Exploratory 12 September 2025 19 September 2025 $5,367 6 available",
    tables := [] }

/-- The same kind of row, marked sold out in both its availability cell
and its flattened text. -/
def rowSold : Row :=
  { cells := ["X Trip", "12 September 2025", "19 September 2025",
              "$1,000", "Sold Out"],
    text := "X Trip 12 September 2025 19 September 2025 $1,000 Sold Out",
    tables := [] }

/-- A row with only four cells (no availability column). -/
def row4 : Row :=
  { cells := ["X Trip", "12 September 2025", "19 September 2025", "$1,000"],
    text := "X Trip 12 September 2025 19 September 2025 $1,000",
    tables := [] }

/-- A cabin-detail sibling row holding one nested cabin table with the
given body rows. -/
def mkDetailRow (brs : List (List String)) : Row :=
  { cells := [], text := "Cabin Type Berths Left Price", tables := [brs] }

/-- A five-cell row whose departure cell does not parse as a date. -/
def rowBadDate : Row :=
  { cells := ["A Trip", "not a date", "x", "y", "z"],
    text := "A Trip not a date x y z",
    tables := [] }

/-- The trip produced for `row6` when the Premium cabin detail row
follows it. -/
def tripPremium : Trip :=
  { title := "7 Night Coral Sea Exploratory",
    dateText := "12 September 2025",
    dateReturn := "19 September 2025",
    priceFromAUD := some 5367,
    availability := "Available",
    cabinsLeft := some 2,
    link := sourceURL,
    cabins := [{ type := "Premium", available := some 2, priceAUD := some 6999 }] }

/-- Window start 2025-01-01 used in the scenarios. -/
def wStart : Date := ⟨2025, 1, 1⟩

/-- Window end 2025-12-31 used in the scenarios. -/
def wEnd : Date := ⟨2025, 12, 31⟩

/-- The trip record the scenario row produces. -/
def trip6 : Trip :=
  { title := "7 Night Coral Sea Exploratory",
    dateText := "12 September 2025",
    dateReturn := "19 September 2025",
    priceFromAUD := some 5367,
    availability := "Available",
    cabinsLeft := none,
    link := sourceURL,
    cabins := [] }

/-! ### Helper lemmas -/

theorem dateLe_refl (a : Date) : dateLe a a = true := by
  simp [dateLe]

theorem dateLe_total (a b : Date) : dateLe a b || dateLe b a := by
  simp [dateLe]
  omega

theorem dateLe_trans {a b c : Date} (h1 : dateLe a b) (h2 : dateLe b c) :
    dateLe a c = true := by
  simp [dateLe] at *
  omega

theorem dateLt_false_iff (a b : Date) : dateLt a b = false ↔ dateLe b a = true := by
  simp [dateLt, dateLe]
  omega

theorem tripLe_total (a b : Trip) : tripLe a b || tripLe b a :=
  dateLe_total _ _

theorem tripLe_trans (a b c : Trip) (h1 : tripLe a b) (h2 : tripLe b c) :
    tripLe a c = true :=
  dateLe_trans h1 h2

/-- `within_window` can only hold on a resolvable date. -/
theorem within_window_isSome {d s e : Option Date}
    (h : within_window d s e = true) : d.isSome = true := by
  cases d with
  | none => simp [within_window] at h
  | some dd => rfl

/-- `within_window (some d) (some s) (some e)` means `s ≤ d ≤ e`. -/
theorem within_window_some_iff (d s e : Date) :
    within_window (some d) (some s) (some e) = true ↔
      dateLe s d = true ∧ dateLe d e = true := by
  simp only [within_window, Option.any_some]
  constructor
  · intro h
    by_cases h1 : dateLt d s
    · simp [h1] at h
    · by_cases h2 : dateLt e d
      · simp [h1, h2] at h
      · exact ⟨(dateLt_false_iff d s).mp (by simp [h1]),
               (dateLt_false_iff e d).mp (by simp [h2])⟩
  · intro ⟨h1, h2⟩
    have g1 : dateLt d s = false := by
      simp [dateLt, dateLe] at *
      omega
    have g2 : dateLt e d = false := by
      simp [dateLt, dateLe] at *
      omega
    simp [g1, g2]

/-- The pair built from a detail row satisfies the `cabins_left`
invariant of scrape.py line 253. -/
theorem detailData_spec (nxt : Row) :
    ((detailData nxt).1 = [] → (detailData nxt).2 = none) ∧
    ((detailData nxt).1 ≠ [] → (detailData nxt).2 = some (sumAvail (detailData nxt).1)) := by
  unfold detailData
  cases nxt.tables with
  | nil => simp
  | cons tbl rest =>
    by_cases h : cabinsOfRows tbl = []
    · simp [h]
    · simp [h, List.isEmpty_iff]

/-- Invariant of every trip the row loop emits: its departure text
parses to a date inside the window, and `cabinsLeft` is the cabin
availability sum (`none` when there are no cabins). -/
theorem extractLoop_inv (s e : Option Date) :
    ∀ rows : List Row, ∀ t ∈ extractLoop s e rows,
      within_window (to_date_obj t.dateText) s e = true ∧
      (t.cabins = [] → t.cabinsLeft = none) ∧
      (t.cabins ≠ [] → t.cabinsLeft = some (sumAvail t.cabins))
  | [] => by simp [extractLoop]
  | [r] => by
    intro t ht
    simp only [extractLoop] at ht
    split at ht
    · split at ht
      · rename_i c0 c1 c2 c3 c4 cr hc hw
        simp only [List.mem_singleton] at ht
        subst ht
        refine ⟨hw, fun _ => rfl, fun hne => absurd rfl hne⟩
      · simp at ht
    · simp at ht
  | r :: nxt :: rest => by
    intro t ht
    simp only [extractLoop] at ht
    split at ht
    · rename_i c0 c1 c2 c3 c4 cr hc
      split at ht
      · rename_i hw
        split at ht
        · rename_i hd
          rcases List.mem_cons.mp ht with h | h
          · subst h
            exact ⟨hw, (detailData_spec nxt).1, (detailData_spec nxt).2⟩
          · exact extractLoop_inv s e rest t h
        · rcases List.mem_cons.mp ht with h | h
          · subst h
            exact ⟨hw, fun _ => rfl, fun hne => absurd rfl hne⟩
          · exact extractLoop_inv s e (nxt :: rest) t h
      · exact extractLoop_inv s e (nxt :: rest) t ht
    · exact extractLoop_inv s e (nxt :: rest) t ht

/-- A row that does not qualify (fewer than five cells, or a departure
outside the window) is skipped without affecting the rest. -/
theorem extractLoop_cons_skip (s e : Option Date) (r : Row) (rest : List Row)
    (h : ∀ c0 c1 c2 c3 c4 cr, r.cells = c0 :: c1 :: c2 :: c3 :: c4 :: cr →
      within_window (to_date_obj (pyStrip c1)) s e = false) :
    extractLoop s e (r :: rest) = extractLoop s e rest := by
  cases rest with
  | nil =>
    simp only [extractLoop]
    split
    · rename_i c0 c1 c2 c3 c4 cr hc
      simp [h c0 c1 c2 c3 c4 cr hc]
    · rfl
  | cons nxt rest2 =>
    simp only [extractLoop]
    split
    · rename_i c0 c1 c2 c3 c4 cr hc
      simp [h c0 c1 c2 c3 c4 cr hc]
    · rfl

/-- A single qualifying row yields exactly its trip, with no cabins. -/
theorem extractLoop_single (s e : Option Date) (r : Row)
    (c0 c1 c2 c3 c4 : String) (cr : List String)
    (hc : r.cells = c0 :: c1 :: c2 :: c3 :: c4 :: cr)
    (hw : within_window (to_date_obj (pyStrip c1)) s e = true) :
    extractLoop s e [r] = [mkTrip c0 c1 c2 c3 c4 [] none] := by
  simp [extractLoop, hc, hw]

/-- Every trip in the final output satisfies the loop invariant. -/
theorem extract_inv {rows : List Row} {s e : Option Date} {t : Trip}
    (h : t ∈ extract_from_results rows s e) :
    within_window (to_date_obj t.dateText) s e = true ∧
    (t.cabins = [] → t.cabinsLeft = none) ∧
    (t.cabins ≠ [] → t.cabinsLeft = some (sumAvail t.cabins)) :=
  extractLoop_inv s e rows t (List.mem_mergeSort.mp h)

/-- The money parser rejects every string without a digit: the cleaned
string is then made of dots only and `float` fails on it. -/
theorem parse_money_no_digit {s : String}
    (h : ∀ c ∈ s.data, c.isDigit = false) : parse_money_to_int s = none := by
  unfold parse_money_to_int
  by_cases hs : s.isEmpty
  · simp [hs]
  · simp only [hs, if_false]
    have hv : ∀ c ∈ s.data.filter (fun c => c.isDigit || c == '.'), c = '.' := by
      intro c hc
      have hm := List.mem_filter.mp hc
      have hd := h c hm.1
      have hp := hm.2
      simp [hd] at hp
      exact hp
    cases hvv : s.data.filter (fun c => c.isDigit || c == '.') with
    | nil => simp
    | cons c rest =>
      have hc : c = '.' := hv c (hvv ▸ List.mem_cons_self c rest)
      subst hc
      have hrest : ∀ d ∈ rest, d = '.' := fun d hd =>
        hv d (hvv ▸ List.mem_cons_of_mem _ hd)
      simp only [List.isEmpty_cons, if_false, Bool.false_eq_true]
      unfold floatRound
      cases rest with
      | nil => simp
      | cons d rest2 =>
        have hd : d = '.' := hrest d (List.mem_cons_self d rest2)
        subst hd
        simp

/-- Concrete evaluation: the scenario row alone yields `trip6`. -/
theorem extract_row6 :
    extract_from_results [row6] (some wStart) (some wEnd) = [trip6] := by
  unfold extract_from_results
  have h1 : extractLoop (some wStart) (some wEnd) [row6] = [trip6] := by decide
  rw [h1, List.mergeSort_singleton]

/-- Concrete evaluation: the scenario row followed by the Premium cabin
detail row yields `tripPremium`. -/
theorem extract_row6_premium :
    extract_from_results [row6, mkDetailRow [["Premium", "2 berths left", "$6,999"]]]
      (some wStart) (some wEnd) = [tripPremium] := by
  unfold extract_from_results
  have h1 : extractLoop (some wStart) (some wEnd)
      [row6, mkDetailRow [["Premium", "2 berths left", "$6,999"]]] = [tripPremium] := by
    decide
  rw [h1, List.mergeSort_singleton]

/-- A two-element repetition is already sorted for `tripLe`. -/
theorem pairwise_two_same (x : Trip) :
    List.Pairwise (fun a b => tripLe a b = true) [x, x] := by
  simp only [List.pairwise_cons, List.mem_singleton, List.not_mem_nil,
    false_implies, implies_true, and_true, List.Pairwise.nil]
  intro b hb
  subst hb
  exact dateLe_refl _

/-! ### Claim theorems -/

/-- C5 counterexample.  The claim says the parser "takes the first
numeric token"; on `"1 2"` the first numeric token is `1`, but the code
strips the space and concatenates the digit runs, returning 12.
`parse_money_spec` is the spec-worded reference parser. -/
theorem C5_money_counterexample :
    parse_money_to_int "1 2" = some 12 ∧
    parse_money_spec "1 2" = some 1 ∧
    parse_money_to_int "1 2" ≠ parse_money_spec "1 2" := by
  refine ⟨rfl, rfl, ?_⟩
  decide

/-- C5 (amended).  The three quoted examples hold and every string with
no digit parses to `null`; but in general the parser removes every
character other than digits and dots and concatenates the remaining
fragments (so distinct numeric tokens merge, as on `"1 2"`), then rounds
half-to-even. -/
theorem C5_money_amended :
    parse_money_to_int "$2,385" = some 2385 ∧
    parse_money_to_int "AUD 6,999.00" = some 6999 ∧
    parse_money_to_int "" = none ∧
    (∀ s : String, (∀ c ∈ s.data, c.isDigit = false) →
      parse_money_to_int s = none) ∧
    parse_money_to_int "1 2" = some 12 := by
  refine ⟨rfl, rfl, rfl, ?_, rfl⟩
  intro s h
  exact parse_money_no_digit h

/-- C5 witness: the no-digit clause of the amended claim, applied at
the concrete string `"n/a"`. -/
theorem C5_money_amended_witness : parse_money_to_int "n/a" = none :=
  C5_money_amended.2.2.2.1 "n/a" (by decide)

/-- C6 (confirmed).  The spec §8 scenario row, within the window
2025-01-01..2025-12-31, yields exactly one trip whose departure cell
parses to 2025-09-12, whose return cell parses to 2025-09-19, and whose
price is 5367.  (The record keeps the original cell texts; the ISO
dates of the claim are their parsed values.) -/
theorem C6_scenario :
    extract_from_results [row6] (some wStart) (some wEnd) = [trip6] ∧
    to_date_obj trip6.dateText = some ⟨2025, 9, 12⟩ ∧
    to_date_obj trip6.dateReturn = some ⟨2025, 9, 19⟩ ∧
    trip6.priceFromAUD = some 5367 :=
  ⟨extract_row6, by decide, by decide, rfl⟩

/-- C1 counterexample.  A row whose flattened text (and availability
cell) carries "Sold Out" still produces a trip record: the code never
filters on sold-out markers, it only normalizes the availability label.
-/
theorem C1_soldout_counterexample :
    hasSub (lowerChars rowSold.text.data) "sold out".data = true ∧
    extract_from_results [rowSold] (some wStart) (some wEnd) ≠ [] := by
  constructor
  · decide
  · unfold extract_from_results
    have h1 : extractLoop (some wStart) (some wEnd) [rowSold] ≠ [] := by decide
    intro h
    have hlen := congrArg List.length h
    rw [List.length_mergeSort] at hlen
    exact h1 (List.length_eq_zero.mp hlen)

/-- C1 (amended).  A sold-out row is not excluded: a five-cell row whose
departure date is in the window yields its trip even when the
availability cell contains "sold", and that trip's availability label is
normalized to "Sold Out". -/
theorem C1_soldout_amended (c0 c1 c2 c3 c4 : String) (cr : List String)
    (r : Row) (s e : Option Date)
    (hc : r.cells = c0 :: c1 :: c2 :: c3 :: c4 :: cr)
    (hw : within_window (to_date_obj (pyStrip c1)) s e = true)
    (hs : hasSub (lowerChars (trimChars (pyStrip c4).data)) "sold".data = true) :
    extract_from_results [r] s e = [mkTrip c0 c1 c2 c3 c4 [] none] ∧
    (mkTrip c0 c1 c2 c3 c4 [] none).availability = "Sold Out" := by
  constructor
  · unfold extract_from_results
    rw [extractLoop_single s e r c0 c1 c2 c3 c4 cr hc hw, List.mergeSort_singleton]
  · show norm_availability (pyStrip c4) = "Sold Out"
    unfold norm_availability
    simp [hs]

/-- C1 witness: the amended claim applied to the concrete sold-out row. -/
theorem C1_soldout_amended_witness :
    extract_from_results [rowSold] (some wStart) (some wEnd) =
      [mkTrip "X Trip" "12 September 2025" "19 September 2025" "$1,000" "Sold Out" [] none] ∧
    (mkTrip "X Trip" "12 September 2025" "19 September 2025" "$1,000" "Sold Out" [] none).availability
      = "Sold Out" :=
  C1_soldout_amended "X Trip" "12 September 2025" "19 September 2025" "$1,000"
    "Sold Out" [] rowSold (some wStart) (some wEnd) rfl (by decide) (by decide)

/-- C2 (confirmed).  Every trip in the output has a departure cell that
parses to a date lying inside the inclusive window. -/
theorem C2_window_inclusion (rows : List Row) (ws we : Date) (t : Trip)
    (h : t ∈ extract_from_results rows (some ws) (some we)) :
    ∃ d, to_date_obj t.dateText = some d ∧
      dateLe ws d = true ∧ dateLe d we = true := by
  have hw := (extract_inv h).1
  obtain ⟨d, hd⟩ := Option.isSome_iff_exists.mp (within_window_isSome hw)
  rw [hd] at hw
  obtain ⟨h1, h2⟩ := (within_window_some_iff d ws we).mp hw
  exact ⟨d, hd, h1, h2⟩

/-- C2 witness: the window-inclusion theorem at the scenario row. -/
theorem C2_window_inclusion_witness :
    ∃ d, to_date_obj trip6.dateText = some d ∧
      dateLe wStart d = true ∧ dateLe d wEnd = true :=
  C2_window_inclusion [row6] wStart wEnd trip6
    (by rw [extract_row6]; exact List.mem_singleton.mpr rfl)

/-- C3 counterexample.  Two identical qualifying rows produce two output
records with the same `(expedition, departs, returns)` key: the code
performs no deduplication. -/
theorem C3_dedup_counterexample :
    (extract_from_results [row6, row6] (some wStart) (some wEnd)).map
        (fun t => (t.title, t.dateText, t.dateReturn)) =
      [("7 Night Coral Sea Exploratory", "12 September 2025", "19 September 2025"),
       ("7 Night Coral Sea Exploratory", "12 September 2025", "19 September 2025")] := by
  unfold extract_from_results
  have h1 : extractLoop (some wStart) (some wEnd) [row6, row6] = [trip6, trip6] := by
    decide
  rw [h1, List.mergeSort_of_sorted (pairwise_two_same trip6)]
  decide

/-- C3 (amended).  No deduplication happens: two input rows with the
same key each contribute their own record, so the output holds the
record twice. -/
theorem C3_dedup_amended (c0 c1 c2 c3 c4 : String) (cr : List String)
    (r : Row) (s e : Option Date)
    (hc : r.cells = c0 :: c1 :: c2 :: c3 :: c4 :: cr)
    (hw : within_window (to_date_obj (pyStrip c1)) s e = true)
    (hd : rowIsDetail r = false) :
    extract_from_results [r, r] s e =
      [mkTrip c0 c1 c2 c3 c4 [] none, mkTrip c0 c1 c2 c3 c4 [] none] := by
  unfold extract_from_results
  have h1 : extractLoop s e [r, r] =
      [mkTrip c0 c1 c2 c3 c4 [] none, mkTrip c0 c1 c2 c3 c4 [] none] := by
    show extractLoop s e (r :: r :: []) = _
    simp only [extractLoop, hc, hw, hd, if_true, Bool.false_eq_true, if_false]
  rw [h1]
  exact List.mergeSort_of_sorted (pairwise_two_same _)

/-- C3 witness: the amended claim at the scenario row. -/
theorem C3_dedup_amended_witness :
    extract_from_results [row6, row6] (some wStart) (some wEnd) =
      [mkTrip "7 Night Coral Sea Exploratory" "12 September 2025"
         "19 September 2025" "$5,367" "6 available" [] none,
       mkTrip "7 Night Coral Sea Exploratory" "12 September 2025"
         "19 September 2025" "$5,367" "6 available" [] none] :=
  C3_dedup_amended "7 Night Coral Sea Exploratory" "12 September 2025"
    "19 September 2025" "$5,367" "6 available" [] row6
    (some wStart) (some wEnd) rfl (by decide) (by decide)

/-- C4 (confirmed).  The output is non-decreasing by parsed departure
date, with an unresolvable date counted as maximal (placed last): since
every emitted record in fact has a resolvable date, the sort by
`to_date_obj(...) or date(1900,1,1)` realizes exactly this order. -/
theorem C4_sorted (rows : List Row) (s e : Option Date) :
    (extract_from_results rows s e).Pairwise
      (fun a b => dateLeOpt (to_date_obj a.dateText) (to_date_obj b.dateText) = true) := by
  have hp : (extract_from_results rows s e).Pairwise (fun a b => tripLe a b = true) := by
    unfold extract_from_results
    exact List.sorted_mergeSort (fun a b c h1 h2 => tripLe_trans a b c h1 h2)
      tripLe_total _
  refine hp.imp_of_mem ?_
  intro a b ha hb hab
  obtain ⟨da, hda⟩ := Option.isSome_iff_exists.mp
    (within_window_isSome (extract_inv ha).1)
  obtain ⟨db, hdb⟩ := Option.isSome_iff_exists.mp
    (within_window_isSome (extract_inv hb).1)
  rw [hda, hdb]
  show dateLe da db = true
  simpa [tripLe, tripKey, hda, hdb] using hab

/-- C7 counterexample.  The claim says every cabin body row with at
least 2 cells yields a cabin record; the code requires at least 3 cells,
so the two-cell row `"Premium | 2 berths left"` yields none. -/
theorem C7_cabin_counterexample :
    (["Premium", "2 berths left"] : List String).length = 2 ∧
    (extract_from_results [row6, mkDetailRow [["Premium", "2 berths left"]]]
        (some wStart) (some wEnd)).map Trip.cabins = [[]] := by
  refine ⟨rfl, ?_⟩
  unfold extract_from_results
  have h1 : extractLoop (some wStart) (some wEnd)
      [row6, mkDetailRow [["Premium", "2 berths left"]]] = [trip6] := by decide
  rw [h1, List.mergeSort_singleton]
  decide

/-- C7 (amended).  A cabin body row needs at least 3 cells; the first
cell's stripped text becomes `cabin_type` (even when empty), the first
integer anywhere in the second cell becomes `berths_left` (no
"berths|left|avail" context is required), and the third cell parsed as
money becomes `price_aud`; two-cell rows are dropped.  The Premium
scenario row yields the cabin the spec states. -/
theorem C7_cabin_amended (t0 t1 t2 : String) (tr : List String) :
    (extract_from_results [row6, mkDetailRow [t0 :: t1 :: t2 :: tr, [t0, t1]]]
        (some wStart) (some wEnd)).map Trip.cabins =
      [[{ type := pyStrip t0, available := extract_int_in_text t1,
          priceAUD := parse_money_to_int t2 }]] ∧
    (extract_from_results [row6, mkDetailRow [["Premium", "2 berths left", "$6,999"]]]
        (some wStart) (some wEnd)).map Trip.cabins =
      [[{ type := "Premium", available := some 2, priceAUD := some 6999 }]] := by
  constructor
  · unfold extract_from_results
    have hw : within_window (to_date_obj (pyStrip "12 September 2025"))
        (some wStart) (some wEnd) = true := by decide
    have hd : rowIsDetail (mkDetailRow [t0 :: t1 :: t2 :: tr, [t0, t1]]) = true := rfl
    have hcab : cabinsOfRows [t0 :: t1 :: t2 :: tr, [t0, t1]] =
        [{ type := pyStrip t0, available := extract_int_in_text t1,
           priceAUD := parse_money_to_int t2 }] := by
      simp [cabinsOfRows]
    have h1 : extractLoop (some wStart) (some wEnd)
        [row6, mkDetailRow [t0 :: t1 :: t2 :: tr, [t0, t1]]] =
        [mkTrip "7 Night Coral Sea Exploratory" "12 September 2025"
           "19 September 2025" "$5,367" "6 available"
           (detailData (mkDetailRow [t0 :: t1 :: t2 :: tr, [t0, t1]])).1
           (detailData (mkDetailRow [t0 :: t1 :: t2 :: tr, [t0, t1]])).2] := by
      show extractLoop (some wStart) (some wEnd)
          (row6 :: mkDetailRow [t0 :: t1 :: t2 :: tr, [t0, t1]] :: []) = _
      simp only [extractLoop, row6, hw, hd, if_true]
    rw [h1, List.mergeSort_singleton]
    simp only [List.map_singleton]
    show [(detailData (mkDetailRow [t0 :: t1 :: t2 :: tr, [t0, t1]])).1] = _
    simp [detailData, mkDetailRow, hcab]
  · rw [extract_row6_premium]
    decide

/-- C8 counterexample.  A four-cell row whose departure date parses and
lies in the window is still discarded: the code requires at least five
cells, not four. -/
theorem C8_fourcell_counterexample :
    row4.cells.length = 4 ∧
    to_date_obj "12 September 2025" = some ⟨2025, 9, 12⟩ ∧
    within_window (to_date_obj "12 September 2025")
      (some wStart) (some wEnd) = true ∧
    extract_from_results [row4] (some wStart) (some wEnd) = [] := by
  refine ⟨rfl, by decide, by decide, ?_⟩
  unfold extract_from_results
  have h1 : extractLoop (some wStart) (some wEnd) [row4] = [] := by decide
  rw [h1, List.mergeSort_nil]

/-- C8 (amended).  The cell threshold is five, not four: any row with
fewer than five cells is discarded as a header/spacer row (so the
availability cell is required), while a five-cell row in the window
yields its trip. -/
theorem C8_fourcell_amended :
    (∀ (r : Row) (rest : List Row) (s e : Option Date), r.cells.length < 5 →
      extract_from_results (r :: rest) s e = extract_from_results rest s e) ∧
    extract_from_results [row6] (some wStart) (some wEnd) = [trip6] := by
  refine ⟨?_, extract_row6⟩
  intro r rest s e hlen
  unfold extract_from_results
  rw [extractLoop_cons_skip s e r rest]
  intro c0 c1 c2 c3 c4 cr hc
  exfalso
  rw [hc] at hlen
  simp at hlen
  omega

/-- C8 witness: the amended claim's skip clause at the four-cell row. -/
theorem C8_fourcell_amended_witness :
    extract_from_results [row4, row6] (some wStart) (some wEnd) =
      extract_from_results [row6] (some wStart) (some wEnd) :=
  C8_fourcell_amended.1 row4 [row6] (some wStart) (some wEnd) (by decide)

/-- C9 (confirmed).  The extraction routine is total: with no rows it
returns the empty list, and a row it cannot turn into a trip (too few
cells, or a departure that does not parse or lies outside the window) is
skipped without affecting the remaining rows. -/
theorem C9_error_handling :
    (∀ s e, extract_from_results [] s e = []) ∧
    (∀ (r : Row) (rest : List Row) (s e : Option Date),
      (∀ c0 c1 c2 c3 c4 cr, r.cells = c0 :: c1 :: c2 :: c3 :: c4 :: cr →
        within_window (to_date_obj (pyStrip c1)) s e = false) →
      extract_from_results (r :: rest) s e = extract_from_results rest s e) := by
  constructor
  · intro s e
    unfold extract_from_results
    rw [show extractLoop s e [] = [] from rfl, List.mergeSort_nil]
  · intro r rest s e h
    unfold extract_from_results
    rw [extractLoop_cons_skip s e r rest h]

/-- C9 witness: a five-cell row whose departure text does not parse is
skipped. -/
theorem C9_error_handling_witness :
    extract_from_results [rowBadDate, row6] (some wStart) (some wEnd) =
      extract_from_results [row6] (some wStart) (some wEnd) :=
  C9_error_handling.2 rowBadDate [row6] (some wStart) (some wEnd)
    (by
      intro c0 c1 c2 c3 c4 cr hc
      have h1 : c1 = "not a date" := by
        have := congrArg (fun l => l.get? 1) hc
        simpa [rowBadDate] using this.symm
      subst h1
      decide)

/-- C10 (confirmed).  Every emitted trip's `cabinsLeft` is `null` when
its cabin list is empty, and otherwise the sum of the cabins' parsed
availability counts with unparsed counts contributing 0. -/
theorem C10_cabinsLeft (rows : List Row) (s e : Option Date) (t : Trip)
    (h : t ∈ extract_from_results rows s e) :
    (t.cabins = [] → t.cabinsLeft = none) ∧
    (t.cabins ≠ [] → t.cabinsLeft = some (sumAvail t.cabins)) :=
  (extract_inv h).2

/-- C10 witness: the invariant at the Premium-cabin scenario. -/
theorem C10_cabinsLeft_witness :
    (tripPremium.cabins = [] → tripPremium.cabinsLeft = none) ∧
    (tripPremium.cabins ≠ [] → tripPremium.cabinsLeft = some (sumAvail tripPremium.cabins)) :=
  C10_cabinsLeft [row6, mkDetailRow [["Premium", "2 berths left", "$6,999"]]]
    (some wStart) (some wEnd) tripPremium
    (by rw [extract_row6_premium]; exact List.mem_singleton.mpr rfl)

end MikeBall
